import Mathlib

/-!
Verification of the repository-audit engine
(`skills/optimizing-claude-code/scripts/audit_repo.py`).

The Python program is shallowly embedded: the filesystem, the home
directory, the user database consulted by tilde expansion, the JSON
parser of the standard library and the version-control subprocess are
modelled as an explicit environment (`Env`); every function of the
script becomes a Lean function over that environment.  Python
exceptions that the script lets escape (`FileNotFoundError` from a
missing `git` binary, `AttributeError`/`TypeError` from JSON values of
unexpected shape, `NotADirectoryError` from iterating a non-directory)
are modelled with `Except Unit`.  Strings are processed over their
`List Char` data so that every definition evaluates inside the kernel.

Modelling notes, stated once here:
* paths are lists of components; an absolute path is a list of
  components below the filesystem root, and the environment's file and
  directory tables are keyed by such lists.  The enumeration order of
  `rglob`/`iterdir` (an OS detail in Python) is the order of the
  environment's tables.
* `str.strip`/`str.split`/whitespace follow the ASCII whitespace
  characters recognised by `Char.isWhitespace`; `str.lower` lowers
  ASCII letters.  `\w` in the import regex is modelled as ASCII
  alphanumeric or underscore.  Unicode refinements of these Python
  functions are out of scope and never load-bearing below.
* the 2 MB truncation of `_safe_read_text` and symlink resolution in
  `Path.resolve` are not modelled.
-/

/-! ## Python string primitives over `List Char` -/

/-- Python code-point `<` on strings (used by `sorted` on tuple keys). -/
def strLtB : List Char → List Char → Bool
  | [], [] => false
  | [], _ :: _ => true
  | _ :: _, [] => false
  | a :: as, b :: bs =>
    if a.toNat < b.toNat then true
    else if b.toNat < a.toNat then false
    else strLtB as bs

/-- Python code-point `<=` on strings. -/
def strLeB (a b : List Char) : Bool := !(strLtB b a)

/-- Python `str.strip()` (whitespace removed from both ends). -/
def pyStrip (s : String) : String :=
  (((s.data.dropWhile Char.isWhitespace).reverse.dropWhile Char.isWhitespace).reverse).asString

/-- Python `str.lower()` (ASCII letters lowered). -/
def pyLower (s : String) : String :=
  (s.data.map fun c =>
    if 'A' ≤ c ∧ c ≤ 'Z' then Char.ofNat (c.toNat + 32) else c).asString

/-- Python `needle in hay` on strings: contiguous substring test. -/
def pyInStr (needle hay : String) : Bool :=
  (hay.data.tails).any fun t => needle.data.isPrefixOf t

/-- Number of newline characters in a string (Python `text.count("\n")`). -/
def countNL (s : String) : Nat := s.data.count '\n'

/-- Python `str.split()` with no argument: maximal runs of non-whitespace. -/
def pyWordsAux : List Char → List Char → List (List Char)
  | [], acc => if acc.isEmpty then [] else [acc.reverse]
  | c :: cs, acc =>
    if c.isWhitespace then
      if acc.isEmpty then pyWordsAux cs [] else acc.reverse :: pyWordsAux cs []
    else pyWordsAux cs (c :: acc)

/-- The whitespace-delimited tokens of a string. -/
def pyWords (s : String) : List (List Char) := pyWordsAux s.data []

/-- Python `str.splitlines()` restricted to `\n` terminators: the list of
lines, without a trailing empty line for a terminal newline. -/
def pySplitlinesAux : List Char → List Char → List String
  | [], acc => if acc.isEmpty then [] else [acc.reverse.asString]
  | c :: cs, acc =>
    if c = '\n' then acc.reverse.asString :: pySplitlinesAux cs []
    else pySplitlinesAux cs (c :: acc)

/-- Python `str.splitlines()` (newline terminators only). -/
def pySplitlines (s : String) : List String := pySplitlinesAux s.data []

/-- Python `sep.join(xs)`. -/
def pyJoin (sep : String) : List String → String
  | [] => ""
  | [x] => x
  | x :: xs => x ++ sep ++ pyJoin sep xs

/-- Python `s.split(sep)` for a one-character separator: every segment,
empty segments included. -/
def splitCharAux (sep : Char) : List Char → List Char → List String
  | [], acc => [acc.reverse.asString]
  | c :: cs, acc =>
    if c = sep then acc.reverse.asString :: splitCharAux sep cs []
    else splitCharAux sep cs (c :: acc)

/-- Split a string at every occurrence of a character. -/
def splitChar (sep : Char) (s : String) : List String := splitCharAux sep s.data []

/-- Python `s.startswith(pre)`. -/
def pyStartsWith (s pre : String) : Bool := pre.data.isPrefixOf s.data

/-- Python `s.endswith(suf)`. -/
def pyEndsWith (s suf : String) : Bool := suf.data.isSuffixOf s.data

/-! ## The markdown-heading scanner

`_count_headings` runs `re.findall(r'^#{1,6}\s+', text, re.MULTILINE)`.
Every match is anchored at a line start (position `0` or a position
right after a `\n`), consists of one to six `#` and then a maximal
whitespace run; since that run contains no `#`, consecutive matches
never overlap and never hide a later line start that begins a heading,
so the number of matches equals the number of line-start positions at
which one to six `#` are followed by a whitespace character. -/

/-- Does `^#{1,6}\s` match at the head of this suffix of the text? -/
def isHeadingAt (cs : List Char) : Bool :=
  let k := (cs.takeWhile (· = '#')).length
  decide (1 ≤ k) && decide (k ≤ 6) &&
    (match cs.drop k with
     | c :: _ => c.isWhitespace
     | [] => false)

/-- Count the line-start positions where a markdown heading begins;
the Boolean records whether the scanner stands at a line start. -/
def countHeadingsAux : List Char → Bool → Nat
  | [], _ => 0
  | c :: rest, atStart =>
    (if atStart ∧ isHeadingAt (c :: rest) then 1 else 0) +
      countHeadingsAux rest (c = '\n')

/-- `_count_headings` of the audit script. -/
def count_headings (s : String) : Nat := countHeadingsAux s.data true

/-! ## Path model

A `PyPath` mirrors Python `pathlib.Path`: a flag for absoluteness and
the list of components.  `Path(raw)` collapses repeated separators and
drops `.` components, which `parsePath` reproduces. -/

structure PyPath where
  absolute : Bool
  parts : List String
  deriving Repr, DecidableEq, Inhabited

/-- Python `Path(raw)` for POSIX strings. -/
def parsePath (raw : String) : PyPath :=
  { absolute := pyStartsWith raw "/"
    parts := (splitChar '/' raw).filter fun c => c ≠ "" ∧ c ≠ "." }

/-- Python `base / p` on paths. -/
def joinPath (base p : PyPath) : PyPath :=
  if p.absolute then p else { absolute := base.absolute, parts := base.parts ++ p.parts }

/-- Lexical `..`-normalisation used to model `Path.resolve` and the
kernel-side path lookup done by `os.stat` (symlinks are out of scope). -/
def normalizeParts (parts : List String) : List String :=
  parts.foldl (fun acc c => if c = ".." then acc.dropLast else acc ++ [c]) []

/-- Python `str(path)`. -/
def pathStr (p : PyPath) : String :=
  if p.absolute then "/" ++ pyJoin "/" p.parts
  else if p.parts.isEmpty then "." else pyJoin "/" p.parts

/-- Render an absolute path given by its components. -/
def pathStrAbs (parts : List String) : String := "/" ++ pyJoin "/" parts

/-- Render the path `path.relative_to(root)` (Python gives `.` for an
empty relative path). -/
def pathStrRel (parts : List String) : String :=
  if parts.isEmpty then "." else pyJoin "/" parts

/-! ## Tilde expansion

`os.path.expanduser` consults the environment for the current user's
home directory and, for `~name` forms, the system user database; a
`~name` whose user is unknown is returned unchanged. -/

/-- `os.path.expanduser`, with the home directory and the user
database supplied by the model environment. -/
def expanduser (home : String) (userdb : String → Option String) (s : String) : String :=
  if pyStartsWith s "~" then
    let rest := (s.data.drop 1)
    let user := (rest.takeWhile (· ≠ '/')).asString
    let tail := (rest.dropWhile (· ≠ '/')).asString
    if user = "" then home ++ tail
    else
      match userdb user with
      | some h => h ++ tail
      | none => s
  else s

/-! ## JSON values and Python object operations

`json.loads` is an external collaborator; the environment carries it as
an oracle `String → Option JsonValue` (`None` for a parse failure, as
`_safe_read_json` catches every parsing exception).  The operations the
script applies to parsed values are partial in Python — `.get` and
`.keys` exist only on dicts, `len` only on sized values, `in` only on
containers — and raise `AttributeError`/`TypeError` otherwise, which
the script does not catch; `Except Unit` models that. -/

inductive JsonValue where
  | null : JsonValue
  | bool (b : Bool) : JsonValue
  | num (n : Int) : JsonValue
  | str (s : String) : JsonValue
  | arr (xs : List JsonValue) : JsonValue
  | obj (kvs : List (String × JsonValue)) : JsonValue
  deriving Inhabited

mutual
/-- Python `==` on values parsed from JSON. -/
def jsonBeq : JsonValue → JsonValue → Bool
  | .null, .null => true
  | .bool a, .bool b => a == b
  | .num a, .num b => a == b
  | .str a, .str b => a == b
  | .arr xs, .arr ys => jsonBeqList xs ys
  | .obj xs, .obj ys => jsonBeqObj xs ys
  | _, _ => false

/-- Elementwise equality of JSON lists. -/
def jsonBeqList : List JsonValue → List JsonValue → Bool
  | [], [] => true
  | x :: xs, y :: ys => jsonBeq x y && jsonBeqList xs ys
  | _, _ => false

/-- Elementwise equality of JSON dicts. -/
def jsonBeqObj : List (String × JsonValue) → List (String × JsonValue) → Bool
  | [], [] => true
  | (k, v) :: xs, (l, w) :: ys => k == l && jsonBeq v w && jsonBeqObj xs ys
  | _, _ => false
end

instance : BEq JsonValue := ⟨jsonBeq⟩

/-- Python `data.get(key, default)`: only dicts have `.get`. -/
def pyGet (v : JsonValue) (key : String) (dflt : JsonValue) : Except Unit JsonValue :=
  match v with
  | .obj kvs =>
    match kvs.find? (fun kv => kv.1 = key) with
    | some kv => .ok kv.2
    | none => .ok dflt
  | _ => .error ()

/-- Python `list(d.keys())`: only dicts have `.keys`. -/
def pyKeys (v : JsonValue) : Except Unit (List String) :=
  match v with
  | .obj kvs => .ok (kvs.map Prod.fst)
  | _ => .error ()

/-- Python `len(v)` on a parsed JSON value. -/
def pyLen (v : JsonValue) : Except Unit Nat :=
  match v with
  | .obj kvs => .ok kvs.length
  | .arr xs => .ok xs.length
  | .str s => .ok s.length
  | _ => .error ()

/-- Python `bool(v)` on a parsed JSON value. -/
def pyTruthy (v : JsonValue) : Bool :=
  match v with
  | .null => false
  | .bool b => b
  | .num n => n ≠ 0
  | .str s => s ≠ ""
  | .arr xs => !xs.isEmpty
  | .obj kvs => !kvs.isEmpty

/-- Python `x in v` for a string `x` and a parsed JSON value:
membership for lists, substring for strings, key test for dicts,
`TypeError` otherwise. -/
def pyIn (x : String) (v : JsonValue) : Except Unit Bool :=
  match v with
  | .arr xs => .ok (xs.contains (.str x))
  | .str s => .ok (pyInStr x s)
  | .obj kvs => .ok (kvs.any (fun kv => kv.1 = x))
  | _ => .error ()

mutual
/-- Python `repr` of a value parsed from JSON (string quoting is
modelled without escape sequences, which never matters below). -/
def pyRepr : JsonValue → String
  | .null => "None"
  | .bool b => if b then "True" else "False"
  | .num n => toString n
  | .str s => "\x27" ++ s ++ "\x27"
  | .arr xs => "[" ++ pyJoin ", " (pyReprList xs) ++ "]"
  | .obj kvs => "\x7b" ++ pyJoin ", " (pyReprObj kvs) ++ "\x7d"

/-- `repr` of each element of a list. -/
def pyReprList : List JsonValue → List String
  | [] => []
  | x :: xs => pyRepr x :: pyReprList xs

/-- `repr` of each key/value pair of a dict. -/
def pyReprObj : List (String × JsonValue) → List String
  | [] => []
  | (k, v) :: xs => ("\x27" ++ k ++ "\x27: " ++ pyRepr v) :: pyReprObj xs
end

/-- Python `str(v)` on a parsed JSON value: the string itself for
strings, `repr` otherwise. -/
def pyStr (v : JsonValue) : String :=
  match v with
  | .str s => s
  | _ => pyRepr v

/-! ## The model environment

The environment holds everything outside the script itself: the
filesystem (a table of files with contents and a table of directories,
both keyed by absolute component lists, their order modelling the OS
enumeration order), the home directory, the user database, the working
directory, the JSON parser oracle, and the behaviour of the `git`
subprocess. -/

/-- Outcome of `subprocess.run`: either the process completed with an
exit code and captured output, or the executable was not found and
`subprocess.run` raised `FileNotFoundError`. -/
inductive RunResult where
  | completed (rc : Int) (out err : String) : RunResult
  | notFound : RunResult

structure Env where
  files : List (List String × String)
  dirs : List (List String)
  home : List String
  userdb : String → Option String
  cwd : List String
  jsonParse : String → Option JsonValue
  runGit : List String → List String → RunResult

/-- Is this absolute path a regular file? -/
def isFileB (env : Env) (p : List String) : Bool :=
  env.files.any fun f => f.1 = p

/-- Is this absolute path a directory? -/
def isDirB (env : Env) (p : List String) : Bool :=
  env.dirs.contains p

/-- Python `path.exists()`. -/
def pathExistsB (env : Env) (p : List String) : Bool :=
  isFileB env p || isDirB env p

/-- The content of a file (empty for anything that is not a file). -/
def fileContent (env : Env) (p : List String) : String :=
  match env.files.find? (fun f => f.1 = p) with
  | some f => f.2
  | none => ""

/-- `stat().st_size` (directory sizes are modelled as zero). -/
def stSize (env : Env) (p : List String) : Nat :=
  (fileContent env p).utf8ByteSize

/-- The universe of paths the filesystem knows, in enumeration order
and without duplicates. -/
def pathsAll (env : Env) : List (List String) :=
  (env.files.map Prod.fst ++ env.dirs).dedup

/-- The absolute components a `PyPath` designates, resolved against
the working directory and lexically normalised. -/
def absOf (env : Env) (p : PyPath) : List String :=
  normalizeParts ((if p.absolute then [] else env.cwd) ++ p.parts)

/-- `root.rglob(name)` for a literal file name: every strict descendant
of `root` whose final component is `name`, files and directories alike. -/
def rglobName (env : Env) (root : List String) (name : String) : List (List String) :=
  (pathsAll env).filter fun p =>
    root.isPrefixOf p && decide (root.length < p.length) && p.getLast? == some name

/-- Every strict descendant of a directory (`rglob("*")`). -/
def descendantsOf (env : Env) (root : List String) : List (List String) :=
  (pathsAll env).filter fun p => root.isPrefixOf p && decide (root.length < p.length)

/-- The immediate children of a directory, in enumeration order. -/
def childrenOf (env : Env) (d : List String) : List (List String) :=
  (pathsAll env).filter fun p => d.isPrefixOf p && decide (p.length = d.length + 1)

/-- `path.iterdir()`: raises on a non-directory. -/
def iterdirE (env : Env) (d : List String) : Except Unit (List (List String)) :=
  if isDirB env d then .ok (childrenOf env d) else .error ()

/-! ## Safe readers and the version-control bridge -/

/-- `_safe_read_text`: file content, the empty string on any failure
(missing path, directory, undecodable bytes).  The 2 MB truncation is
not modelled. -/
def safe_read_text (env : Env) (p : List String) : String := fileContent env p

/-- `_safe_read_json`: parsed JSON or the `None` sentinel on any
read or parse failure. -/
def safe_read_json (env : Env) (p : List String) : Option JsonValue :=
  env.jsonParse (safe_read_text env p)

/-- `_run`: runs a command and returns `(returncode, stdout.strip(),
stderr.strip())`; a missing executable raises `FileNotFoundError`,
which nothing in the script catches. -/
def runCmd (env : Env) (cmd : List String) (cwd : List String) :
    Except Unit (Int × String × String) :=
  match env.runGit cmd cwd with
  | .completed rc out err => .ok (rc, pyStrip out, pyStrip err)
  | .notFound => .error ()

/-- `_is_git_repo`: does `root/.git` exist? -/
def is_git_repo (env : Env) (root : List String) : Bool :=
  pathExistsB env (root ++ [".git"])

/-- `_git_tracked_files`: `git ls-files` output split into non-blank
lines, `none` on a non-zero exit; a missing `git` binary propagates. -/
def git_tracked_files (env : Env) (root : List String) :
    Except Unit (Option (List String)) := do
  let (rc, out, _) ← runCmd env ["git", "ls-files"] root
  if rc ≠ 0 then return none
  return some ((pySplitlines out).filter fun line => pyStrip line ≠ "")

/-- `_git_last_commit_iso`: first line of `git log -1 --format=%cI`,
`none` on failure or empty output. -/
def git_last_commit_iso (env : Env) (root : List String) (rel_path : String) :
    Except Unit (Option String) := do
  let (rc, out, _) ← runCmd env ["git", "log", "-1", "--format=%cI", "--", rel_path] root
  if rc ≠ 0 ∨ out = "" then return none
  return some (pyStrip ((pySplitlines out).headD ""))

/-! ## Import extraction

`IMPORT_RE = (?<!`)\B@([~/.\w\-\s/]+[.\w\-\s/])`, scanned with
`re.finditer`.  Because `@` is a non-word character, `\B` holds exactly
when the match is at the start of the text or the preceding character
is itself a non-word character; the negative lookbehind additionally
rules out a preceding backtick.  The group is a maximal run of class-1
characters truncated of its trailing tildes (greedy `+` followed by the
class-2 character, which is class 1 minus `~`), and must have at least
two characters.  After a match the scan resumes at the match end. -/

/-- `\w` of the import regex (ASCII reading). -/
def isWordChar (c : Char) : Bool :=
  c.isAlpha || c.isDigit || c = '_'

/-- The class `[~/.\w\-\s/]` of the import regex. -/
def isImportChar (c : Char) : Bool :=
  c = '~' || c = '/' || c = '.' || c = '-' || isWordChar c || c.isWhitespace

/-- May a match start after this preceding character (`(?<!`)\B`
before the `@`)? -/
def importPrevOk : Option Char → Bool
  | none => true
  | some c => !isWordChar c && c ≠ Char.ofNat 96

/-- Longest prefix admissible as the regex group: the maximal class-1
run with trailing tildes removed. -/
def importGroup (cs : List Char) : List Char :=
  ((cs.takeWhile isImportChar).reverse.dropWhile (· = '~')).reverse

/-- The scan of `re.finditer(IMPORT_RE, text)`: group strings in order
of appearance. -/
def scanImports (cs : List Char) (prev : Option Char) : List String :=
  match cs with
  | [] => []
  | c :: rest =>
    if c = '@' && importPrevOk prev then
      let grp := importGroup rest
      if 2 ≤ grp.length then
        grp.asString :: scanImports (rest.drop grp.length) grp.getLast?
      else
        scanImports rest (some c)
    else
      scanImports rest (some c)
termination_by cs.length
decreasing_by
  · simp only [List.length_drop, List.length_cons]
    omega
  · simp only [List.length_cons]; omega
  · simp only [List.length_cons]; omega

/-- `_extract_imports`: group strings stripped, email-like tokens
discarded (the class excludes `@`, so the filter never fires, and is
kept only for fidelity). -/
def extract_imports (text : String) : List String :=
  ((scanImports text.data none).map pyStrip).filter fun x => !pyInStr "@" x

/-! ## Reference resolution -/

/-- `_resolve_import`: strip the token; `~`-tokens go through
`expanduser`; absolute tokens are used directly; anything else resolves
against the artifact's own directory (`base_dir`), then `resolve()`
normalises it against the working directory.  The repository root is
accepted and ignored, exactly as in the source. -/
def resolve_import (env : Env) (base_dir : PyPath) (raw : String) (repo_root : PyPath) :
    PyPath :=
  let raw := pyStrip raw
  if pyStartsWith raw "~" then
    parsePath (expanduser (pathStrAbs env.home) env.userdb raw)
  else
    let p := parsePath raw
    if p.absolute then p
    else { absolute := true, parts := absOf env (joinPath base_dir p) }

/-- Python `path.exists()` on a possibly relative `PyPath` (the OS
resolves it against the working directory). -/
def pyPathExists (env : Env) (p : PyPath) : Bool :=
  pathExistsB env (absOf env p)

/-! ## Report records

One structure per dataclass of the script, same fields and defaults
(`exists` is a Lean keyword and is written `«exists»`). -/

structure MemoryFileReport where
  path : String
  «exists» : Bool
  bytes : Nat := 0
  lines : Nat := 0
  word_count : Nat := 0
  has_headings : Bool := false
  heading_count : Nat := 0
  imports : List String := []
  missing_imports : List String := []
  last_git_commit_iso : Option String := none
  scope : String := "project"
  issues : List String := []
  recommendations : List String := []
  deriving Repr, DecidableEq, Inhabited

structure SettingsFileReport where
  path : String
  «exists» : Bool
  scope : String
  bytes : Nat := 0
  has_allowed_tools : Bool := false
  has_deny_tools : Bool := false
  has_custom_instructions : Bool := false
  has_mcp_servers : Bool := false
  mcp_server_count : Nat := 0
  issues : List String := []
  deriving Repr, DecidableEq, Inhabited

structure MCPConfigReport where
  path : String
  «exists» : Bool
  scope : String
  server_count : Nat := 0
  servers : List String := []
  issues : List String := []
  deriving Repr, DecidableEq, Inhabited

structure SkillReport where
  path : String
  name : String
  scope : String
  has_description : Bool := false
  has_scripts : Bool := false
  has_references : Bool := false
  has_assets : Bool := false
  skill_md_lines : Nat := 0
  issues : List String := []
  deriving Repr, DecidableEq, Inhabited

structure SubagentReport where
  path : String
  name : String
  scope : String
  has_description : Bool := false
  agent_md_lines : Nat := 0
  issues : List String := []
  deriving Repr, DecidableEq, Inhabited

/-! ## Memory-file discovery and analysis -/

/-- `_discover_memory_files`: the four well-known locations, then the
nested `CLAUDE.md` not already enumerated (scope `project-nested`),
then the nested `CLAUDE.local.md` not already enumerated
(scope `local-nested`). -/
def discover_memory_files (env : Env) (root : List String) :
    List (List String × String) :=
  let candidates : List (List String × String) :=
    [(root ++ ["CLAUDE.md"], "project"),
     (root ++ [".claude", "CLAUDE.md"], "project"),
     (root ++ ["CLAUDE.local.md"], "local"),
     (root ++ [".claude", "CLAUDE.local.md"], "local")]
  let nested1 := (rglobName env root "CLAUDE.md").filter fun p =>
    !(candidates.map Prod.fst).contains p
  let candidates2 := candidates ++ nested1.map (fun p => (p, "project-nested"))
  let nested2 := (rglobName env root "CLAUDE.local.md").filter fun p =>
    !(candidates2.map Prod.fst).contains p
  candidates2 ++ nested2.map (fun p => (p, "local-nested"))

/-- Python `str(path.relative_to(root))` with the `ValueError` fallback
to `str(path)` that `_analyze_memory_file` and friends use. -/
def relStr (root path : List String) : String :=
  if root.isPrefixOf path then pathStrRel (path.drop root.length)
  else pathStrAbs path

/-- The fixed message of the deprecated-local issue. -/
def msgLocalDeprecated : String :=
  "CLAUDE.local.md is deprecated; prefer @imports in CLAUDE.md"

/-- The parametric very-large issue message. -/
def msgVeryLarge (lines : Nat) : String :=
  "Very large (" ++ toString lines ++ " lines); consider splitting via @imports"

/-- The parametric missing-imports issue message. -/
def msgMissingImports (missing : List String) : String :=
  "Missing @imports: " ++ pyJoin ", " missing

/-- The fixed no-headings issue message. -/
def msgNoHeadings : String :=
  "No markdown headings; structure may be hard for agents to parse"

/-- The git-freshness lookup of `_analyze_memory_file`: only made when
a tracked-file list is available. -/
def lastCommitOf (env : Env) (root : List String) (tracked : Option (List String))
    (rel : String) : Except Unit (Option String) :=
  match tracked with
  | some _ => git_last_commit_iso env root rel
  | none => pure none

/-- `_analyze_memory_file`.  The existence flag is
`path.exists() and path.is_file()`, i.e. `isFileB` (a file always
exists).  The single effect is the `git log` call for the freshness
timestamp, made only when a tracked-file list is available. -/
def analyze_memory_file (env : Env) (path : List String) (scope : String)
    (root : List String) (tracked : Option (List String)) :
    Except Unit MemoryFileReport := do
  let rel := relStr root path
  if isFileB env path then
    let text := safe_read_text env path
    let lines := countNL text + (if text ≠ "" then 1 else 0)
    let word_count := (pyWords text).length
    let has_headings := decide (0 < count_headings text)
    let imports := extract_imports text
    let base_dir : PyPath := { absolute := true, parts := path.dropLast }
    let missing_imports := imports.filter fun imp =>
      !pyPathExists env (resolve_import env base_dir imp { absolute := true, parts := root })
    let last ← lastCommitOf env root tracked rel
    let issues :=
      (if pyInStr "local" scope then [msgLocalDeprecated] else []) ++
      (if 500 < lines then [msgVeryLarge lines] else []) ++
      (if !missing_imports.isEmpty then [msgMissingImports missing_imports] else []) ++
      (if !has_headings then [msgNoHeadings] else [])
    let text_lower := pyLower text
    let missing_sections :=
      (if !pyInStr "build" text_lower && !pyInStr "test" text_lower &&
          !pyInStr "lint" text_lower then ["commands (build/test/lint)"] else []) ++
      (if !pyInStr "architecture" text_lower && !pyInStr "structure" text_lower then
        ["architecture overview"] else [])
    let recommendations :=
      (if 500 < lines then
        ["Keep top-level CLAUDE.md concise; extract details to imported files"]
       else if 300 < lines then
        ["Consider splitting larger sections into @imported files"]
       else []) ++
      (if !has_headings then
        ["Add section headings for Commands, Architecture, Conventions, etc."] else []) ++
      (if word_count < 50 then
        ["Very minimal content; consider adding project conventions and commands"] else []) ++
      (if !missing_sections.isEmpty then
        ["Consider adding: " ++ pyJoin ", " missing_sections] else [])
    return { path := rel, «exists» := true, scope := scope,
             bytes := stSize env path, lines := lines, word_count := word_count,
             has_headings := has_headings, heading_count := count_headings text,
             imports := imports, missing_imports := missing_imports,
             last_git_commit_iso := last,
             issues := issues, recommendations := recommendations }
  else
    return { path := rel, «exists» := false, scope := scope }

/-! ## Settings discovery and analysis -/

/-- `_discover_settings_files`: three fixed locations, plus the managed
locations that exist. -/
def discover_settings_files (env : Env) (root : List String) :
    List (List String × String) :=
  let candidates : List (List String × String) :=
    [(env.home ++ [".claude", "settings.json"], "user"),
     (root ++ [".claude", "settings.json"], "project"),
     (root ++ [".claude", "settings.local.json"], "local")]
  let managed : List (List String) :=
    [["etc", "claude", "settings.json"],
     env.home ++ [".config", "claude", "managed-settings.json"]]
  candidates ++ (managed.filter (pathExistsB env)).map (fun mp => (mp, "managed"))

/-- `_analyze_settings_file`.  JSON values of unexpected shape make the
attribute accesses raise, and the script lets that escape. -/
def analyze_settings_file (env : Env) (path : List String) (scope : String) :
    Except Unit SettingsFileReport := do
  let pstr := pathStrAbs path
  if pathExistsB env path then
    let bytes := stSize env path
    match safe_read_json env path with
    | none =>
      return { path := pstr, «exists» := true, scope := scope, bytes := bytes,
               issues := ["Invalid JSON format"] }
    | some data => do
      let permsA ← pyGet data "permissions" (.obj [])
      let allowA ← pyGet permsA "allow" .null
      let has_allowed_tools := pyTruthy allowA
      let permsB ← pyGet data "permissions" (.obj [])
      let denyB ← pyGet permsB "deny" .null
      let has_deny_tools := pyTruthy denyB
      let customV ← pyGet data "customInstructions" .null
      let has_custom_instructions := pyTruthy customV
      let mcp_servers ← pyGet data "mcpServers" (.obj [])
      let has_mcp_servers := pyTruthy mcp_servers
      let mcp_server_count ← pyLen mcp_servers
      let issues ←
        if has_allowed_tools then do
          let permsC ← pyGet data "permissions" (.obj [])
          let allowed ← pyGet permsC "allow" (.arr [])
          let direct ← pyIn "Bash(*)" allowed
          if direct || pyInStr "Bash(*)\x27" (pyStr allowed) then
            pure ["Overly permissive Bash(*) in allowed tools - security risk"]
          else pure ([] : List String)
        else pure ([] : List String)
      return { path := pstr, «exists» := true, scope := scope, bytes := bytes,
               has_allowed_tools := has_allowed_tools, has_deny_tools := has_deny_tools,
               has_custom_instructions := has_custom_instructions,
               has_mcp_servers := has_mcp_servers, mcp_server_count := mcp_server_count,
               issues := issues }
  else
    return { path := pstr, «exists» := false, scope := scope }

/-! ## MCP configuration discovery and analysis -/

/-- `_discover_mcp_configs`: three fixed locations. -/
def discover_mcp_configs (env : Env) (root : List String) :
    List (List String × String) :=
  [(env.home ++ [".claude", "mcp.json"], "user"),
   (root ++ [".mcp.json"], "project"),
   (root ++ [".claude", "mcp.json"], "project")]

/-- `_analyze_mcp_config`. -/
def analyze_mcp_config (env : Env) (path : List String) (scope : String) :
    Except Unit MCPConfigReport := do
  let pstr := pathStrAbs path
  if pathExistsB env path then
    match safe_read_json env path with
    | none =>
      return { path := pstr, «exists» := true, scope := scope,
               issues := ["Invalid JSON format"] }
    | some data => do
      let servers ← pyGet data "mcpServers" (.obj [])
      let server_count ← pyLen servers
      let names ← pyKeys servers
      let issues :=
        if 10 < server_count then
          ["Many MCP servers (" ++ toString server_count ++
           "); may impact context with lazy loading disabled"]
        else []
      return { path := pstr, «exists» := true, scope := scope,
               server_count := server_count, servers := names, issues := issues }
  else
    return { path := pstr, «exists» := false, scope := scope }

/-! ## Skill discovery and analysis -/

/-- `_discover_skills`: subdirectories of the user and project skill
directories that carry a `SKILL.md`; a skill directory that exists but
is not a directory makes `iterdir` raise. -/
def discover_skills (env : Env) (root : List String) :
    Except Unit (List (List String × String)) := do
  let user_skills_dir := env.home ++ [".claude", "skills"]
  let userSkills ←
    if pathExistsB env user_skills_dir then do
      let entries ← iterdirE env user_skills_dir
      pure ((entries.filter fun d =>
        isDirB env d && pathExistsB env (d ++ ["SKILL.md"])).map (fun d => (d, "user")))
    else pure []
  let project_skills_dir := root ++ [".claude", "skills"]
  let projSkills ←
    if pathExistsB env project_skills_dir then do
      let entries ← iterdirE env project_skills_dir
      pure ((entries.filter fun d =>
        isDirB env d && pathExistsB env (d ++ ["SKILL.md"])).map (fun d => (d, "project")))
    else pure []
  return userSkills ++ projSkills

/-- `_analyze_skill`.  Note the line count `text.count("\n") + 1`,
with no emptiness guard. -/
def analyze_skill (env : Env) (skill_dir : List String) (scope : String)
    (root : List String) : SkillReport :=
  let skill_md := skill_dir ++ ["SKILL.md"]
  let rel := relStr root skill_dir
  let base : SkillReport :=
    { path := rel, name := (skill_dir.getLastD ""), scope := scope,
      has_scripts := pathExistsB env (skill_dir ++ ["scripts"]),
      has_references := pathExistsB env (skill_dir ++ ["references"]),
      has_assets := pathExistsB env (skill_dir ++ ["assets"]) }
  if pathExistsB env skill_md then
    let text := safe_read_text env skill_md
    let skill_md_lines := countNL text + 1
    let has_description := pyInStr "description:" text
    let issues :=
      (if !has_description then ["Missing description in SKILL.md frontmatter"] else []) ++
      (if 500 < skill_md_lines then
        ["SKILL.md very large (" ++ toString skill_md_lines ++
         " lines); consider using references/"] else [])
    { base with skill_md_lines := skill_md_lines,
                has_description := has_description, issues := issues }
  else base

/-! ## Subagent discovery and analysis -/

/-- `dir.glob(pattern)` for a `*.md` pattern: the children whose name
ends in `.md`; raises on an existing non-directory. -/
def globMdE (env : Env) (d : List String) : Except Unit (List (List String)) := do
  let entries ← iterdirE env d
  return entries.filter fun p => pyEndsWith (p.getLastD "") ".md"

/-- `_discover_subagents`: `*.md` entries of the user and project agent
directories. -/
def discover_subagents (env : Env) (root : List String) :
    Except Unit (List (List String × String)) := do
  let user_agents_dir := env.home ++ [".claude", "agents"]
  let userAgents ←
    if pathExistsB env user_agents_dir then do
      let files ← globMdE env user_agents_dir
      pure (files.map (fun f => (f, "user")))
    else pure []
  let project_agents_dir := root ++ [".claude", "agents"]
  let projAgents ←
    if pathExistsB env project_agents_dir then do
      let files ← globMdE env project_agents_dir
      pure (files.map (fun f => (f, "project")))
    else pure []
  return userAgents ++ projAgents

/-- Python `path.stem`: the final component with one trailing suffix
removed when `0 < i < len - 1` for the last dot position `i`. -/
def pyStem (name : String) : String :=
  let cs := name.data
  let revIdx := cs.reverse.findIdx (· = '.')
  if revIdx < cs.length then
    let i := cs.length - 1 - revIdx
    if 0 < i ∧ i < cs.length - 1 then (cs.take i).asString else name
  else name

/-- `_analyze_subagent`: again `text.count("\n") + 1` with no
emptiness guard. -/
def analyze_subagent (env : Env) (agent_path : List String) (scope : String)
    (root : List String) : SubagentReport :=
  let rel := relStr root agent_path
  let base : SubagentReport :=
    { path := rel, name := pyStem (agent_path.getLastD ""), scope := scope }
  if pathExistsB env agent_path then
    let text := safe_read_text env agent_path
    let agent_md_lines := countNL text + 1
    let has_description :=
      pyInStr "description:" (pyLower text) || pyStrip text ≠ ""
    { base with agent_md_lines := agent_md_lines, has_description := has_description }
  else base

/-! ## Repository scale and directory statistics -/

/-- The housekeeping directories excluded from the fallback filesystem
walk (`exclude_dirs` in `audit`). -/
def excludeDirs : List String :=
  ["node_modules", ".git", "dist", "build", ".venv", "__pycache__"]

/-- The fallback file count: regular files under the root none of whose
path components is a housekeeping directory. -/
def countWalk (env : Env) (root : List String) : Nat :=
  ((descendantsOf env root).filter fun p =>
    isFileB env p && !(p.any fun part => excludeDirs.contains part)).length

/-- One entry of the directory-hotspot list. -/
structure DirStat where
  dir : String
  files : Nat
  deriving Repr, DecidableEq, Inhabited

/-- Insertion-ordered counting dict (`top_dirs[top] = top_dirs.get(top, 0) + 1`). -/
def bumpCount (m : List (String × Nat)) (k : String) : List (String × Nat) :=
  if m.any (fun kv => kv.1 = k) then
    m.map fun kv => if kv.1 = k then (kv.1, kv.2 + 1) else kv
  else m ++ [(k, 1)]

/-- Python `sorted(d.items(), key=count, reverse=True)`: a stable sort
descending by count, original (insertion) order preserved among ties. -/
def DirGe (a b : String × Nat) : Prop := b.2 ≤ a.2

instance : DecidableRel DirGe := fun a b => by unfold DirGe; infer_instance

/-- The top-level directory name a tracked path is charged to:
`f.split("/", 1)[0]`, or `.` for a path without separator. -/
def topOfTracked (f : String) : String :=
  if f.data.contains '/' then (f.data.takeWhile (· ≠ '/')).asString else "."

/-- `_get_directory_stats`: top 20 top-level directories by file count,
from the tracked list when available, otherwise from `root.iterdir()`
(which raises when the root is not a directory). -/
def get_directory_stats (env : Env) (root : List String)
    (tracked : Option (List String)) : Except Unit (List DirStat) := do
  let top_dirs ←
    match tracked with
    | some l => pure (l.foldl (fun m f => bumpCount m (topOfTracked f)) [])
    | none => do
      let entries ← iterdirE env root
      pure (entries.foldl (fun m p =>
        let nm := p.getLastD ""
        if isDirB env p &&
            !([".git", "node_modules", "dist", "build", ".venv", "__pycache__"].contains nm) then
          m ++ [(nm, ((descendantsOf env p).filter (isFileB env)).length)]
        else m) [])
  let sorted_dirs := (List.insertionSort DirGe top_dirs).take 20
  return sorted_dirs.map fun dn => { dir := dn.1, files := dn.2 }

/-! ## Issue aggregation -/

/-- One entry of the flattened issue/recommendation lists; the optional
`file` key of the Python dicts becomes an `Option`. -/
structure IssueEntry where
  priority : String
  category : String
  file : Option String
  message : String
  deriving Repr, DecidableEq, Inhabited

/-- The sort key order of `sorted(..., key=(priority, category))`:
code-point order on the priority, ties broken by the category. -/
def IssueLe (a b : IssueEntry) : Prop :=
  strLtB a.priority.data b.priority.data = true ∨
    (a.priority = b.priority ∧ strLeB a.category.data b.category.data = true)

instance : DecidableRel IssueLe := fun a b => by unfold IssueLe; infer_instance

/-- The message of the single P0 no-memory-document issue. -/
def msgNoMemory : String :=
  "No CLAUDE.md found; create one to provide project context to Claude Code"

/-- The parametric P1 scale recommendation message. -/
def msgScale (file_count : Nat) : String :=
  "Repo has " ++ toString file_count ++
    " files (>3000 threshold). Consider a context engine or retrieval layer for reliable agent context."

/-- The unsorted flat issue list, in the script's append order: the
no-memory issue, then memory issues (P1 when the message mentions
`missing` case-insensitively, P2 otherwise), then settings issues (P1),
then MCP issues (P2), then skill issues (P2). -/
def mkAllIssues (memRs : List MemoryFileReport) (setRs : List SettingsFileReport)
    (mcpRs : List MCPConfigReport) (skRs : List SkillReport) : List IssueEntry :=
  (if (memRs.filter (fun r => r.«exists»)).isEmpty then
    [{ priority := "P0", category := "memory", file := none, message := msgNoMemory }]
   else []) ++
  (memRs.flatMap fun r => r.issues.map fun issue =>
    { priority := if pyInStr "missing" (pyLower issue) then "P1" else "P2",
      category := "memory", file := some r.path, message := issue }) ++
  (setRs.flatMap fun r => r.issues.map fun issue =>
    { priority := "P1", category := "settings", file := some r.path, message := issue }) ++
  (mcpRs.flatMap fun r => r.issues.map fun issue =>
    { priority := "P2", category := "mcp", file := some r.path, message := issue }) ++
  (skRs.flatMap fun r => r.issues.map fun issue =>
    { priority := "P2", category := "skills", file := some r.path, message := issue })

/-- The unsorted flat recommendation list: memory recommendations (P2),
then the scale recommendation when the large-repo flag is set. -/
def mkAllRecs (memRs : List MemoryFileReport) (large_repo : Bool)
    (file_count : Nat) : List IssueEntry :=
  (memRs.flatMap fun r => r.recommendations.map fun rec =>
    { priority := "P2", category := "memory", file := some r.path, message := rec }) ++
  (if large_repo then
    [{ priority := "P1", category := "scale", file := none, message := msgScale file_count }]
   else [])

/-! ## The audit -/

/-- The final report: the JSON document of the script flattened into
one record (`meta`, `repo_scale`, the five category blocks, and the
two sorted lists), field for field. -/
structure AuditReport where
  tool : String
  generated_at : String
  root : String
  file_count : Nat
  file_count_source : String
  large_repo_threshold : Nat
  is_large_repo : Bool
  is_git_repo : Bool
  top_level_dirs_by_file_count : List DirStat
  memory_discovered : List MemoryFileReport
  memory_missing_standard : List MemoryFileReport
  settings_discovered : List SettingsFileReport
  mcp_discovered : List MCPConfigReport
  mcp_total_servers : Nat
  skills_discovered : List SkillReport
  skills_total_count : Nat
  subagents_discovered : List SubagentReport
  subagents_total_count : Nat
  issues : List IssueEntry
  recommendations : List IssueEntry
  deriving Repr, DecidableEq, Inhabited

/-- Effectful monadic map, in list order (the list comprehensions of
`audit`, with any raised exception propagating). -/
def mapME (f : α → Except Unit β) : List α → Except Unit (List β)
  | [] => .ok []
  | x :: xs => do
    let y ← f x
    let ys ← mapME f xs
    return y :: ys

/-- `tracked = _git_tracked_files(root) if _is_git_repo(root) else None`. -/
def trackedOf (env : Env) (root : List String) : Except Unit (Option (List String)) :=
  if is_git_repo env root then git_tracked_files env root else pure none

/-- The body of `audit(root, include_user_scope)` up to the timestamp:
everything is computed, the report record is assembled with an empty
`generated_at`.  Any uncaught Python exception surfaces as `.error`. -/
def auditCore (env : Env) (root0 : PyPath) (include_user_scope : Bool) :
    Except Unit AuditReport := do
  let root := absOf env root0
  let tracked ← trackedOf env root
  let file_count :=
    match tracked with
    | some l => l.length
    | none => countWalk env root
  let file_count_source :=
    match tracked with
    | some _ => "git ls-files"
    | none => "filesystem walk (excludes node_modules/.git/dist/build/.venv/__pycache__)"
  let large_repo : Bool := decide (3000 < file_count)
  let memory_reports ← mapME
    (fun ps => analyze_memory_file env ps.1 ps.2 root tracked)
    (discover_memory_files env root)
  let settings_reports0 ← mapME
    (fun ps => analyze_settings_file env ps.1 ps.2)
    (discover_settings_files env root)
  let settings_reports :=
    if include_user_scope then settings_reports0
    else settings_reports0.filter fun r => r.scope ≠ "user"
  let mcp_reports0 ← mapME
    (fun ps => analyze_mcp_config env ps.1 ps.2)
    (discover_mcp_configs env root)
  let mcp_reports :=
    if include_user_scope then mcp_reports0
    else mcp_reports0.filter fun r => r.scope ≠ "user"
  let skills ← discover_skills env root
  let skill_reports0 := skills.map fun ps => analyze_skill env ps.1 ps.2 root
  let skill_reports :=
    if include_user_scope then skill_reports0
    else skill_reports0.filter fun r => r.scope ≠ "user"
  let subagents ← discover_subagents env root
  let subagent_reports0 := subagents.map fun ps => analyze_subagent env ps.1 ps.2 root
  let subagent_reports :=
    if include_user_scope then subagent_reports0
    else subagent_reports0.filter fun r => r.scope ≠ "user"
  let dir_stats ← get_directory_stats env root tracked
  let all_issues := mkAllIssues memory_reports settings_reports mcp_reports skill_reports
  let all_recommendations := mkAllRecs memory_reports large_repo file_count
  return {
    tool := "optimizing-claude-code.audit_repo"
    generated_at := ""
    root := pathStrAbs root
    file_count := file_count
    file_count_source := file_count_source
    large_repo_threshold := 3000
    is_large_repo := large_repo
    is_git_repo := is_git_repo env root
    top_level_dirs_by_file_count := dir_stats
    memory_discovered := memory_reports.filter fun r => r.«exists»
    memory_missing_standard := memory_reports.filter fun r =>
      !r.«exists» && (r.scope == "project" || r.scope == "local")
    settings_discovered := settings_reports.filter fun r => r.«exists»
    mcp_discovered := mcp_reports.filter fun r => r.«exists»
    mcp_total_servers :=
      ((mcp_reports.filter fun r => r.«exists»).map fun r => r.server_count).sum
    skills_discovered := skill_reports
    skills_total_count := skill_reports.length
    subagents_discovered := subagent_reports
    subagents_total_count := subagent_reports.length
    issues := List.insertionSort IssueLe all_issues
    recommendations := List.insertionSort IssueLe all_recommendations }

/-- `audit`: the timestamp taken just before assembling the report is
its only use, so the run factors through `auditCore`. -/
def audit (env : Env) (root0 : PyPath) (include_user_scope : Bool)
    (now_iso : String) : Except Unit AuditReport :=
  (auditCore env root0 include_user_scope).map fun d => { d with generated_at := now_iso }

/-! ## The process entry point -/

/-- What the process did: printed a report and exited 0, printed the
fatal pre-analysis diagnostic to stderr and exited 1, or died of an
uncaught exception raised during analysis (non-zero exit, traceback,
no pre-analysis diagnostic). -/
inductive MainOutcome where
  | report (r : AuditReport) : MainOutcome
  | fatalDiag (msg : String) : MainOutcome
  | crash : MainOutcome
  deriving Repr, DecidableEq, Inhabited

/-- `main`: only `root.exists()` is checked before `audit` runs —
there is no directory check. -/
def mainRun (env : Env) (rootArg : String) (include_user_scope : Bool)
    (now_iso : String) : MainOutcome × Int :=
  let root := parsePath rootArg
  if !pathExistsB env (absOf env root) then
    (.fatalDiag ("Error: " ++ pathStr root ++ " does not exist"), 1)
  else
    match audit env root include_user_scope now_iso with
    | .ok r => (.report r, 0)
    | .error _ => (.crash, 1)

/-! ## Concrete environments

Small closed environments used to evaluate the embedding on concrete
inputs.  Paths live under a root directory `repo` (or a plain file
`f`); the JSON-parser oracle only answers for the strings actually
present. -/

/-- Extract the value of a successful computation. -/
def okOr {α : Type} (dflt : α) : Except Unit α → α
  | .ok a => a
  | .error _ => dflt

/-- A healthy project: a memory file with a heading plus a deprecated
local memory file; no git, no settings, no skills. -/
def envW : Env :=
  { files := [(["repo", "CLAUDE.md"], "# Title\n\nbuild test lint architecture\n"),
              (["repo", "CLAUDE.local.md"], "notes\n")]
    dirs := [["repo"]]
    home := ["home", "u"]
    userdb := fun _ => none
    cwd := ["repo"]
    jsonParse := fun _ => none
    runGit := fun _ _ => .completed 1 "" "" }

/-- The audit root used with `envW`. -/
def rootW : PyPath := { absolute := true, parts := ["repo"] }

/-- The report `envW` produces. -/
def repW : AuditReport := okOr default (audit envW rootW false "t0")

/-- The memory report of the `CLAUDE.md` of `envW`. -/
def memRepW : MemoryFileReport :=
  okOr default (analyze_memory_file envW ["repo", "CLAUDE.md"] "project" ["repo"] none)

/-- The memory report of a standard location that does not exist in
`envW`. -/
def memRepMissingW : MemoryFileReport :=
  okOr default (analyze_memory_file envW ["repo", ".claude", "CLAUDE.md"] "project"
    ["repo"] none)

/-- A root path that exists but is a regular file. -/
def envFileRoot : Env :=
  { files := [(["f"], "content")]
    dirs := []
    home := ["home", "u"]
    userdb := fun _ => none
    cwd := []
    jsonParse := fun _ => none
    runGit := fun _ _ => .completed 1 "" "" }

/-- A directory root whose project settings file parses to a JSON
array, so the settings analyzer raises `AttributeError`. -/
def envBadSettings : Env :=
  { files := [(["repo", ".claude", "settings.json"], "[]")]
    dirs := [["repo"], ["repo", ".claude"]]
    home := ["home", "u"]
    userdb := fun _ => none
    cwd := ["repo"]
    jsonParse := fun s => if s = "[]" then some (.arr []) else none
    runGit := fun _ _ => .completed 1 "" "" }

/-- The `git` binary is absent: every invocation raises
`FileNotFoundError`. -/
def envGitMissing : Env :=
  { files := []
    dirs := [["repo"], ["repo", ".git"]]
    home := ["home", "u"]
    userdb := fun _ => none
    cwd := ["repo"]
    jsonParse := fun _ => none
    runGit := fun _ _ => .notFound }

/-- A working `git` that lists two tracked files. -/
def envGitOk : Env :=
  { files := [(["repo", "a.txt"], "a"), (["repo", "b.txt"], "b")]
    dirs := [["repo"], ["repo", ".git"]]
    home := ["home", "u"]
    userdb := fun _ => none
    cwd := ["repo"]
    jsonParse := fun _ => none
    runGit := fun cmd _ =>
      if cmd = ["git", "ls-files"] then .completed 0 "a.txt\nb.txt\n" ""
      else .completed 0 "" "" }

/-- A memory document nested inside `node_modules`. -/
def envNested : Env :=
  { files := [(["repo", "node_modules", "pkg", "CLAUDE.md"], "x")]
    dirs := [["repo"], ["repo", "node_modules"], ["repo", "node_modules", "pkg"]]
    home := ["home", "u"]
    userdb := fun _ => none
    cwd := ["repo"]
    jsonParse := fun _ => none
    runGit := fun _ _ => .completed 1 "" "" }

/-- A project skill whose `SKILL.md` exists and is empty. -/
def envEmptySkill : Env :=
  { files := [(["repo", ".claude", "skills", "s1", "SKILL.md"], "")]
    dirs := [["repo"], ["repo", ".claude"], ["repo", ".claude", "skills"],
             ["repo", ".claude", "skills", "s1"]]
    home := ["home", "u"]
    userdb := fun _ => none
    cwd := ["repo"]
    jsonParse := fun _ => none
    runGit := fun _ _ => .completed 1 "" "" }

/-- A user database that knows the user `alice`. -/
def envTilde : Env :=
  { files := []
    dirs := []
    home := ["home", "me"]
    userdb := fun u => if u = "alice" then some "/home/alice" else none
    cwd := []
    jsonParse := fun _ => none
    runGit := fun _ _ => .completed 1 "" "" }

/-! ## Helper lemmas -/

theorem string_eq_of_data_eq {s t : String} (h : s.data = t.data) : s = t := by
  cases s; cases t
  exact congrArg String.mk h

theorem except_bind_ok {α β : Type} {x : Except Unit α} {f : α → Except Unit β} {c : β}
    (h : Bind.bind x f = Except.ok c) : ∃ b, x = Except.ok b ∧ f b = Except.ok c := by
  cases x with
  | ok b => exact ⟨b, rfl, h⟩
  | error e => exact absurd h (by simp [Bind.bind, Except.bind])

theorem mapME_ok_mem {α β : Type} {f : α → Except Unit β} :
    ∀ {l : List α} {ys : List β}, mapME f l = Except.ok ys →
      ∀ y ∈ ys, ∃ x ∈ l, f x = Except.ok y := by
  intro l
  induction l with
  | nil =>
    intro ys h y hy
    simp only [mapME] at h
    cases h
    simp at hy
  | cons a as ih =>
    intro ys h y hy
    simp only [mapME] at h
    obtain ⟨b, hb, h2⟩ := except_bind_ok h
    obtain ⟨bs, hbs, h3⟩ := except_bind_ok h2
    have h4 : b :: bs = ys := by
      simp only [pure, Except.pure] at h3
      exact Except.ok.inj h3
    subst h4
    rcases List.mem_cons.mp hy with hy | hy
    · exact ⟨a, List.mem_cons_self a as, hy ▸ hb⟩
    · obtain ⟨x, hx, hfx⟩ := ih hbs y hy
      exact ⟨x, List.mem_cons_of_mem a hx, hfx⟩

theorem strLtB_trans : ∀ (a b c : List Char),
    strLtB a b = true → strLtB b c = true → strLtB a c = true
  | a, [], _, h1, _ => by cases a <;> simp [strLtB] at h1
  | _, _ :: _, [], _, h2 => by simp [strLtB] at h2
  | [], _ :: _, _ :: _, _, _ => rfl
  | a :: as, b :: bs, c :: cs, h1, h2 => by
    simp only [strLtB] at h1 h2 ⊢
    rcases Nat.lt_trichotomy a.toNat b.toNat with hab | hab | hab
    · rcases Nat.lt_trichotomy b.toNat c.toNat with hbc | hbc | hbc
      · have hac : a.toNat < c.toNat := by omega
        simp [hac]
      · have hac : a.toNat < c.toNat := by omega
        simp [hac]
      · have hn1 : ¬ b.toNat < c.toNat := by omega
        simp [hn1, hbc] at h2
    · have hn1 : ¬ a.toNat < b.toNat := by omega
      have hn2 : ¬ b.toNat < a.toNat := by omega
      simp only [hn1, hn2, if_false] at h1
      rcases Nat.lt_trichotomy b.toNat c.toNat with hbc | hbc | hbc
      · have hac : a.toNat < c.toNat := by omega
        simp [hac]
      · have hn3 : ¬ b.toNat < c.toNat := by omega
        have hn4 : ¬ c.toNat < b.toNat := by omega
        simp only [hn3, hn4, if_false] at h2
        have hn5 : ¬ a.toNat < c.toNat := by omega
        have hn6 : ¬ c.toNat < a.toNat := by omega
        simp only [hn5, hn6, if_false]
        exact strLtB_trans as bs cs h1 h2
      · have hn3 : ¬ b.toNat < c.toNat := by omega
        simp [hn3, hbc] at h2
    · have hn1 : ¬ a.toNat < b.toNat := by omega
      simp [hn1, hab] at h1

theorem char_eq_of_toNat_eq {a b : Char} (h : a.toNat = b.toNat) : a = b := by
  rcases a with ⟨⟨av, _⟩, _⟩
  rcases b with ⟨⟨bv, _⟩, _⟩
  simp only [Char.toNat, UInt32.toNat] at h
  subst h
  rfl

theorem strLtB_trichotomy : ∀ (a b : List Char),
    strLtB a b = true ∨ a = b ∨ strLtB b a = true
  | [], [] => Or.inr (Or.inl rfl)
  | [], _ :: _ => Or.inl rfl
  | _ :: _, [] => Or.inr (Or.inr rfl)
  | a :: as, b :: bs => by
    rcases Nat.lt_trichotomy a.toNat b.toNat with h1 | h1 | h1
    · left; simp [strLtB, h1]
    · have hab : a = b := char_eq_of_toNat_eq h1
      subst hab
      rcases strLtB_trichotomy as bs with h | h | h
      · left; simp [strLtB, h]
      · right; left; rw [h]
      · right; right; simp [strLtB, h]
    · right; right; simp [strLtB, h1]

theorem strLtB_irrefl : ∀ (a : List Char), strLtB a a = false
  | [] => rfl
  | a :: as => by simp [strLtB, strLtB_irrefl as]

theorem strLtB_asymm {a b : List Char} (h : strLtB a b = true) : strLtB b a = false := by
  cases hba : strLtB b a with
  | false => rfl
  | true =>
    have h2 := strLtB_trans a b a h hba
    rw [strLtB_irrefl] at h2
    cases h2

theorem strLtB_false_trans {a b c : List Char}
    (h1 : strLtB b a = false) (h2 : strLtB c b = false) : strLtB c a = false := by
  cases hca : strLtB c a with
  | false => rfl
  | true =>
    exfalso
    rcases strLtB_trichotomy b a with hx | hx | hx
    · rw [hx] at h1; cases h1
    · subst hx; rw [hca] at h2; cases h2
    · have h3 := strLtB_trans c a b hca hx
      rw [h3] at h2; cases h2

instance : IsTotal IssueEntry IssueLe := by
  constructor
  intro a b
  rcases strLtB_trichotomy a.priority.data b.priority.data with h | h | h
  · exact Or.inl (Or.inl h)
  · have hpq : a.priority = b.priority := string_eq_of_data_eq h
    rcases strLtB_trichotomy a.category.data b.category.data with h2 | h2 | h2
    · refine Or.inl (Or.inr ⟨hpq, ?_⟩)
      unfold strLeB
      rw [strLtB_asymm h2]
      rfl
    · refine Or.inl (Or.inr ⟨hpq, ?_⟩)
      unfold strLeB
      rw [← h2, strLtB_irrefl]
      rfl
    · refine Or.inr (Or.inr ⟨hpq.symm, ?_⟩)
      unfold strLeB
      rw [strLtB_asymm h2]
      rfl
  · exact Or.inr (Or.inl h)

theorem strLeB_trans {a b c : List Char}
    (h1 : strLeB a b = true) (h2 : strLeB b c = true) : strLeB a c = true := by
  unfold strLeB at h1 h2 ⊢
  simp only [Bool.not_eq_true'] at h1 h2 ⊢
  exact strLtB_false_trans h1 h2

instance : IsTrans IssueEntry IssueLe := by
  constructor
  intro a b c h1 h2
  rcases h1 with h1 | ⟨h1e, h1c⟩
  · rcases h2 with h2 | ⟨h2e, h2c⟩
    · exact Or.inl (strLtB_trans _ _ _ h1 h2)
    · exact Or.inl (h2e ▸ h1)
  · rcases h2 with h2 | ⟨h2e, h2c⟩
    · exact Or.inl (h1e ▸ h2)
    · exact Or.inr ⟨h1e.trans h2e, strLeB_trans h1c h2c⟩

theorem auditCore_ok_elim {env : Env} {root0 : PyPath} {incl : Bool} {d : AuditReport}
    (h : auditCore env root0 incl = Except.ok d) :
    ∃ (tracked : Option (List String)) (memRs : List MemoryFileReport)
      (setRs : List SettingsFileReport) (mcpRs : List MCPConfigReport)
      (skRs : List SkillReport),
      mapME (fun ps => analyze_memory_file env ps.1 ps.2 (absOf env root0) tracked)
          (discover_memory_files env (absOf env root0)) = Except.ok memRs ∧
      d.is_large_repo = decide (3000 < d.file_count) ∧
      d.issues = List.insertionSort IssueLe (mkAllIssues memRs setRs mcpRs skRs) ∧
      d.recommendations =
        List.insertionSort IssueLe (mkAllRecs memRs d.is_large_repo d.file_count) := by
  simp only [auditCore] at h
  obtain ⟨tracked, ht, h⟩ := except_bind_ok h
  obtain ⟨memRs, hmem, h⟩ := except_bind_ok h
  obtain ⟨setRs0, hset, h⟩ := except_bind_ok h
  obtain ⟨mcpRs0, hmcp, h⟩ := except_bind_ok h
  obtain ⟨skills, hsk, h⟩ := except_bind_ok h
  obtain ⟨subagents, hsub, h⟩ := except_bind_ok h
  obtain ⟨dirStats, hds, h⟩ := except_bind_ok h
  simp only [pure, Except.pure] at h
  have hd := Except.ok.inj h
  subst hd
  exact ⟨tracked, memRs, _, _, _, hmem, rfl, rfl, rfl⟩

theorem except_map_ok {α β : Type} {f : α → β} {x : Except Unit α} {y : β}
    (h : Except.map f x = Except.ok y) : ∃ a, x = Except.ok a ∧ f a = y := by
  cases x with
  | ok a => exact ⟨a, rfl, Except.ok.inj h⟩
  | error e => simp [Except.map] at h

theorem analyze_memory_file_invariants {env : Env} {path : List String} {scope : String}
    {root : List String} {tracked : Option (List String)} {rep : MemoryFileReport}
    (h : analyze_memory_file env path scope root tracked = Except.ok rep) :
    rep.missing_imports ⊆ rep.imports ∧
    (rep.«exists» = false → rep.bytes = 0 ∧ rep.lines = 0 ∧ rep.word_count = 0 ∧
      rep.heading_count = 0 ∧ rep.imports = [] ∧ rep.missing_imports = [] ∧
      rep.issues = [] ∧ rep.recommendations = []) := by
  simp only [analyze_memory_file] at h
  by_cases hf : isFileB env path = true
  · simp only [hf, if_true] at h
    obtain ⟨last, hlast, h⟩ := except_bind_ok h
    simp only [pure, Except.pure] at h
    have hd := Except.ok.inj h
    subst hd
    refine ⟨fun x hx => List.mem_of_mem_filter hx, ?_⟩
    intro hex
    simp at hex
  · simp only [hf, if_false] at h
    simp only [pure, Except.pure] at h
    have hd := Except.ok.inj h
    subst hd
    exact ⟨fun x hx => absurd hx (by simp), fun _ => ⟨rfl, rfl, rfl, rfl, rfl, rfl, rfl, rfl⟩⟩

theorem analyze_memory_file_metrics {env : Env} {path : List String} {scope : String}
    {root : List String} {tracked : Option (List String)} {rep : MemoryFileReport}
    (h : analyze_memory_file env path scope root tracked = Except.ok rep)
    (hex : rep.«exists» = true) :
    rep.lines = countNL (safe_read_text env path) +
      (if safe_read_text env path ≠ "" then 1 else 0) ∧
    rep.word_count = (pyWords (safe_read_text env path)).length ∧
    rep.heading_count = count_headings (safe_read_text env path) := by
  simp only [analyze_memory_file] at h
  by_cases hf : isFileB env path = true
  · simp only [hf, if_true] at h
    obtain ⟨last, hlast, h⟩ := except_bind_ok h
    simp only [pure, Except.pure] at h
    have hd := Except.ok.inj h
    subst hd
    exact ⟨rfl, rfl, rfl⟩
  · simp only [hf, if_false, pure, Except.pure] at h
    have hd := Except.ok.inj h
    subst hd
    simp at hex

theorem analyze_memory_file_issue_shapes {env : Env} {path : List String} {scope : String}
    {root : List String} {tracked : Option (List String)} {rep : MemoryFileReport}
    (h : analyze_memory_file env path scope root tracked = Except.ok rep) :
    ∀ m ∈ rep.issues, m = msgLocalDeprecated ∨ (∃ n, m = msgVeryLarge n) ∨
      (∃ l, m = msgMissingImports l) ∨ m = msgNoHeadings := by
  simp only [analyze_memory_file] at h
  by_cases hf : isFileB env path = true
  · simp only [hf, if_true] at h
    obtain ⟨last, hlast, h⟩ := except_bind_ok h
    simp only [pure, Except.pure] at h
    have hd := Except.ok.inj h
    subst hd
    clear h hlast
    intro m hm
    simp only [List.mem_append] at hm
    rcases hm with ((hm | hm) | hm) | hm
    · left
      revert hm
      split <;> intro hm <;>
        first
          | exact List.mem_singleton.mp hm
          | exact absurd hm (List.not_mem_nil m)
    · right; left
      revert hm
      split <;> (try split) <;> intro hm <;>
        first
          | exact ⟨_, List.mem_singleton.mp hm⟩
          | exact absurd hm (List.not_mem_nil m)
    · right; right; left
      revert hm
      split <;> intro hm <;>
        first
          | exact ⟨_, List.mem_singleton.mp hm⟩
          | exact absurd hm (List.not_mem_nil m)
    · right; right; right
      revert hm
      split <;> intro hm <;>
        first
          | exact List.mem_singleton.mp hm
          | exact absurd hm (List.not_mem_nil m)
  · simp only [hf, if_false, pure, Except.pure] at h
    have hd := Except.ok.inj h
    subst hd
    intro m hm
    exact absurd hm (List.not_mem_nil m)

theorem msgLocalDeprecated_ne_noMemory : msgLocalDeprecated ≠ msgNoMemory := by decide

theorem msgNoHeadings_ne_noMemory : msgNoHeadings ≠ msgNoMemory := by decide

theorem msgVeryLarge_ne_noMemory (n : Nat) : msgVeryLarge n ≠ msgNoMemory := by
  intro h
  have h2 := congrArg (fun s => s.data.take 1) h
  have h3 : (['V'] : List Char) = ['N'] := h2
  exact absurd h3 (by decide)

theorem msgMissingImports_ne_noMemory (l : List String) :
    msgMissingImports l ≠ msgNoMemory := by
  intro h
  have h2 := congrArg (fun s => s.data.take 1) h
  have h3 : (['M'] : List Char) = ['N'] := h2
  exact absurd h3 (by decide)

theorem mkAllIssues_mem {memRs : List MemoryFileReport} {setRs : List SettingsFileReport}
    {mcpRs : List MCPConfigReport} {skRs : List SkillReport} {x : IssueEntry}
    (hx : x ∈ mkAllIssues memRs setRs mcpRs skRs)
    (hshape : ∀ r ∈ memRs, ∀ m ∈ r.issues,
      m = msgLocalDeprecated ∨ (∃ n, m = msgVeryLarge n) ∨
      (∃ l, m = msgMissingImports l) ∨ m = msgNoHeadings) :
    (x.category = "memory" ∧ x.message = msgNoMemory ∧ x.priority = "P0") ∨
    (x.category = "memory" ∧ x.message ≠ msgNoMemory ∧
      x.priority = (if pyInStr "missing" (pyLower x.message) then "P1" else "P2")) ∨
    (x.category = "settings" ∧ x.priority = "P1") ∨
    (x.category = "mcp" ∧ x.priority = "P2") ∨
    (x.category = "skills" ∧ x.priority = "P2") := by
  unfold mkAllIssues at hx
  simp only [List.mem_append] at hx
  rcases hx with (((hx | hx) | hx) | hx) | hx
  · left
    revert hx
    split
    · intro hx
      have h2 := List.mem_singleton.mp hx
      subst h2
      exact ⟨rfl, rfl, rfl⟩
    · intro hx
      exact absurd hx (List.not_mem_nil x)
  · right; left
    rcases List.mem_flatMap.mp hx with ⟨r, hr, hxr⟩
    rcases List.mem_map.mp hxr with ⟨issue, hiss, hxeq⟩
    subst hxeq
    refine ⟨rfl, ?_, rfl⟩
    rcases hshape r hr issue hiss with h | ⟨n, h⟩ | ⟨l, h⟩ | h
    · exact h ▸ msgLocalDeprecated_ne_noMemory
    · exact h ▸ msgVeryLarge_ne_noMemory n
    · exact h ▸ msgMissingImports_ne_noMemory l
    · exact h ▸ msgNoHeadings_ne_noMemory
  · right; right; left
    rcases List.mem_flatMap.mp hx with ⟨r, hr, hxr⟩
    rcases List.mem_map.mp hxr with ⟨issue, hiss, hxeq⟩
    subst hxeq
    exact ⟨rfl, rfl⟩
  · right; right; right; left
    rcases List.mem_flatMap.mp hx with ⟨r, hr, hxr⟩
    rcases List.mem_map.mp hxr with ⟨issue, hiss, hxeq⟩
    subst hxeq
    exact ⟨rfl, rfl⟩
  · right; right; right; right
    rcases List.mem_flatMap.mp hx with ⟨r, hr, hxr⟩
    rcases List.mem_map.mp hxr with ⟨issue, hiss, hxeq⟩
    subst hxeq
    exact ⟨rfl, rfl⟩

theorem mkAllRecs_mem {memRs : List MemoryFileReport} {large : Bool} {fc : Nat}
    {y : IssueEntry} (hy : y ∈ mkAllRecs memRs large fc) :
    (y.category = "memory" ∧ y.priority = "P2") ∨
    (y.category = "scale" ∧ y.priority = "P1") := by
  unfold mkAllRecs at hy
  rcases List.mem_append.mp hy with hy | hy
  · left
    rcases List.mem_flatMap.mp hy with ⟨r, hr, hyr⟩
    rcases List.mem_map.mp hyr with ⟨rec, hrec, hyeq⟩
    subst hyeq
    exact ⟨rfl, rfl⟩
  · right
    revert hy
    split
    · intro hy
      have h2 := List.mem_singleton.mp hy
      subst h2
      exact ⟨rfl, rfl⟩
    · intro hy
      exact absurd hy (List.not_mem_nil y)

theorem mkAllRecs_scale (memRs : List MemoryFileReport) (fc : Nat) :
    ({ priority := "P1", category := "scale", file := none,
       message := msgScale fc } : IssueEntry) ∈ mkAllRecs memRs true fc := by
  unfold mkAllRecs
  refine List.mem_append.mpr (Or.inr ?_)
  simp

/-- C2 counterexample: with the `git` binary absent, the tracked-files
query propagates `FileNotFoundError` instead of returning the `None`
sentinel — it does raise. -/
theorem git_tracked_files_raises_when_tool_missing :
    git_tracked_files envGitMissing ["repo"] = Except.error () := rfl

/-- C2 (amended): on a completed `git ls-files` the tracked-files query
returns the non-blank output lines for exit 0 and the `None` sentinel
for any non-zero exit; but when the tool binary is missing the
underlying invocation raises `FileNotFoundError` and the query
propagates it rather than returning the sentinel. -/
theorem git_tracked_files_behavior :
    ∀ (env : Env) (root : List String),
      (∀ rc out err, env.runGit ["git", "ls-files"] root = .completed rc out err →
        git_tracked_files env root =
          .ok (if rc = 0 then
            some ((pySplitlines (pyStrip out)).filter fun line => pyStrip line ≠ "")
          else none)) ∧
      (env.runGit ["git", "ls-files"] root = .notFound →
        git_tracked_files env root = .error ()) := by
  intro env root
  constructor
  · intro rc out err h
    simp only [git_tracked_files, runCmd, h]
    by_cases hrc : rc = 0
    · subst hrc
      simp [Bind.bind, Except.bind, pure, Except.pure]
    · simp [Bind.bind, Except.bind, pure, Except.pure, hrc]
  · intro h
    simp [git_tracked_files, runCmd, h, Bind.bind, Except.bind]

/-- C2 witness: a concrete completed invocation with exit 0, through
the amended theorem. -/
theorem git_tracked_files_behavior_witness :
    git_tracked_files envGitOk ["repo"] = Except.ok (some ["a.txt", "b.txt"]) := by
  have h := (git_tracked_files_behavior envGitOk ["repo"]).1 0 "a.txt\nb.txt\n" "" rfl
  simpa using h

/-- C1 (amended): the entry point prints the pre-analysis diagnostic and
exits non-zero exactly when the root path does not exist — no directory
check is made; when the root exists and the audit completes, the process
exits 0 regardless of how many issues were found; when the root exists
but the audit raises, the process dies with a traceback (non-zero exit,
no pre-analysis diagnostic). -/
theorem main_exit_behavior :
    ∀ (env : Env) (rootArg : String) (incl : Bool) (now : String),
      (pathExistsB env (absOf env (parsePath rootArg)) = false →
        mainRun env rootArg incl now =
          (.fatalDiag ("Error: " ++ pathStr (parsePath rootArg) ++ " does not exist"), 1)) ∧
      (∀ rep, pathExistsB env (absOf env (parsePath rootArg)) = true →
        audit env (parsePath rootArg) incl now = .ok rep →
        mainRun env rootArg incl now = (.report rep, 0)) ∧
      (pathExistsB env (absOf env (parsePath rootArg)) = true →
        audit env (parsePath rootArg) incl now = .error () →
        mainRun env rootArg incl now = (.crash, 1)) := by
  intro env rootArg incl now
  refine ⟨?_, ?_, ?_⟩
  · intro h
    simp [mainRun, h]
  · intro rep hex haud
    simp [mainRun, hex, haud]
  · intro hex haud
    simp [mainRun, hex, haud]

/-- C1 counterexample: a root that exists as a regular file is not
rejected before analysis (the claimed diagnostic-and-exit does not
happen; here the audit then crashes on `iterdir`), and a root that
exists as a directory can still exit non-zero when a settings file
parses to a JSON array — refuting both directions of the claimed
exit-behavior equivalence. -/
theorem main_accepts_non_directory_root :
    (isFileB envFileRoot ["f"] = true ∧ isDirB envFileRoot ["f"] = false ∧
      mainRun envFileRoot "/f" false "t0" = (.crash, 1)) ∧
    (isDirB envBadSettings ["repo"] = true ∧
      mainRun envBadSettings "/repo" false "t0" = (.crash, 1)) := by
  exact ⟨⟨rfl, rfl, rfl⟩, ⟨rfl, rfl⟩⟩

/-- C1 witness: the amended theorem applied to a healthy directory root
(exit 0 with the report) and to a missing root (fatal diagnostic). -/
theorem main_exit_behavior_witness :
    mainRun envW "/repo" false "t0" = (.report repW, 0) ∧
    mainRun envFileRoot "/nope" false "t0" =
      (.fatalDiag ("Error: " ++ pathStr (parsePath "/nope") ++ " does not exist"), 1) := by
  constructor
  · exact (main_exit_behavior envW "/repo" false "t0").2.1 repW rfl rfl
  · exact (main_exit_behavior envFileRoot "/nope" false "t0").1 rfl

/-- C3 counterexample: the recursive memory-document search does not
exclude housekeeping directories — a `CLAUDE.md` nested under
`node_modules` is discovered with scope `project-nested`. -/
theorem discover_memory_includes_housekeeping_path :
    (["repo", "node_modules", "pkg", "CLAUDE.md"], "project-nested") ∈
      discover_memory_files envNested ["repo"] ∧
    (["repo", "node_modules", "pkg", "CLAUDE.md"].dropLast.any
      fun part => excludeDirs.contains part) = true := by
  exact ⟨by decide, by decide⟩

/-- C3 (amended): the recursive search does skip already-enumerated
paths — the discovered list never repeats a path — but it performs no
housekeeping-directory exclusion. -/
theorem discover_memory_files_nodup :
    ∀ (env : Env) (root : List String),
      ((discover_memory_files env root).map Prod.fst).Nodup := by
  intro env root
  unfold discover_memory_files
  simp only [List.map_append, List.map_map, Function.comp_def, List.map_id',
    List.map_cons, List.map_nil]
  have hrg1 : (rglobName env root "CLAUDE.md").Nodup := by
    unfold rglobName pathsAll
    exact (List.nodup_dedup _).filter _
  have hrg2 : (rglobName env root "CLAUDE.local.md").Nodup := by
    unfold rglobName pathsAll
    exact (List.nodup_dedup _).filter _
  have hB4 : ([root ++ ["CLAUDE.md"], root ++ [".claude", "CLAUDE.md"],
      root ++ ["CLAUDE.local.md"], root ++ [".claude", "CLAUDE.local.md"]] :
      List (List String)).Nodup := by
    refine List.nodup_cons.mpr ⟨?_, List.nodup_cons.mpr ⟨?_,
      List.nodup_cons.mpr ⟨?_, List.nodup_singleton _⟩⟩⟩
    · intro h
      rcases List.mem_cons.mp h with h | h
      · exact absurd (List.append_cancel_left h) (by decide)
      rcases List.mem_cons.mp h with h | h
      · exact absurd (List.append_cancel_left h) (by decide)
      · exact absurd (List.append_cancel_left (List.mem_singleton.mp h)) (by decide)
    · intro h
      rcases List.mem_cons.mp h with h | h
      · exact absurd (List.append_cancel_left h) (by decide)
      · exact absurd (List.append_cancel_left (List.mem_singleton.mp h)) (by decide)
    · intro h
      exact absurd (List.append_cancel_left (List.mem_singleton.mp h)) (by decide)
  refine List.nodup_append.mpr ⟨List.nodup_append.mpr ⟨hB4, hrg1.filter _, ?_⟩,
    hrg2.filter _, ?_⟩
  · intro a ha han
    have hc := (List.mem_filter.mp han).2
    simp only [Bool.not_eq_true'] at hc
    have hmem : (List.contains [root ++ ["CLAUDE.md"], root ++ [".claude", "CLAUDE.md"],
        root ++ ["CLAUDE.local.md"], root ++ [".claude", "CLAUDE.local.md"]] a) = true :=
      List.elem_eq_true_of_mem ha
    exact Bool.noConfusion (hmem.symm.trans hc)
  · intro a ha han
    have hc := (List.mem_filter.mp han).2
    simp only [Bool.not_eq_true'] at hc
    have hmem : (List.contains ([root ++ ["CLAUDE.md"], root ++ [".claude", "CLAUDE.md"],
        root ++ ["CLAUDE.local.md"], root ++ [".claude", "CLAUDE.local.md"]] ++
        List.filter (fun p => !(List.contains [root ++ ["CLAUDE.md"],
          root ++ [".claude", "CLAUDE.md"], root ++ ["CLAUDE.local.md"],
          root ++ [".claude", "CLAUDE.local.md"]] p)) (rglobName env root "CLAUDE.md")) a) =
        true := List.elem_eq_true_of_mem ha
    exact Bool.noConfusion (hmem.symm.trans hc)

/-- C4 (amended): for an existing memory document the line count is the
newline count plus 1 when the text is non-empty (0 for empty), the word
count is the number of whitespace-delimited tokens and the heading count
is the number of line starts carrying one to six `#` followed by
whitespace; the skill and subagent analyzers instead report newline
count plus 1 unconditionally, so an empty existing file has line
count 1 there, not 0. -/
theorem analyzer_line_word_heading_metrics :
    (∀ (env : Env) (path : List String) (scope : String) (root : List String)
        (tracked : Option (List String)) (rep : MemoryFileReport),
      analyze_memory_file env path scope root tracked = Except.ok rep →
      rep.«exists» = true →
      rep.lines = countNL (safe_read_text env path) +
        (if safe_read_text env path ≠ "" then 1 else 0) ∧
      rep.word_count = (pyWords (safe_read_text env path)).length ∧
      rep.heading_count = count_headings (safe_read_text env path)) ∧
    (∀ (env : Env) (dir : List String) (scope : String) (root : List String),
      pathExistsB env (dir ++ ["SKILL.md"]) = true →
      (analyze_skill env dir scope root).skill_md_lines =
        countNL (safe_read_text env (dir ++ ["SKILL.md"])) + 1) ∧
    (∀ (env : Env) (p : List String) (scope : String) (root : List String),
      pathExistsB env p = true →
      (analyze_subagent env p scope root).agent_md_lines =
        countNL (safe_read_text env p) + 1) := by
  refine ⟨fun env path scope root tracked rep h hex =>
    analyze_memory_file_metrics h hex, ?_, ?_⟩
  · intro env dir scope root h
    simp [analyze_skill, h]
  · intro env p scope root h
    simp [analyze_subagent, h]

/-- C4 counterexample: an existing empty `SKILL.md` is reported with
1 line, where the claim's uniform rule demands 0. -/
theorem skill_line_count_of_empty_file :
    safe_read_text envEmptySkill ["repo", ".claude", "skills", "s1", "SKILL.md"] = "" ∧
    (analyze_skill envEmptySkill ["repo", ".claude", "skills", "s1"] "project"
      ["repo"]).skill_md_lines = 1 := ⟨rfl, rfl⟩

/-- C4 witness: the amended metric equations at concrete files of the
three analyzers. -/
theorem analyzer_line_word_heading_metrics_witness :
    (memRepW.lines = countNL (safe_read_text envW ["repo", "CLAUDE.md"]) +
      (if safe_read_text envW ["repo", "CLAUDE.md"] ≠ "" then 1 else 0)) ∧
    (analyze_skill envEmptySkill ["repo", ".claude", "skills", "s1"] "project"
      ["repo"]).skill_md_lines =
      countNL (safe_read_text envEmptySkill
        ["repo", ".claude", "skills", "s1", "SKILL.md"]) + 1 ∧
    (analyze_subagent envW ["repo", "CLAUDE.md"] "project" ["repo"]).agent_md_lines =
      countNL (safe_read_text envW ["repo", "CLAUDE.md"]) + 1 := by
  refine ⟨?_, ?_, ?_⟩
  · exact (analyzer_line_word_heading_metrics.1 envW ["repo", "CLAUDE.md"] "project"
      ["repo"] none memRepW rfl rfl).1
  · exact analyzer_line_word_heading_metrics.2.1 envEmptySkill
      ["repo", ".claude", "skills", "s1"] "project" ["repo"] rfl
  · exact analyzer_line_word_heading_metrics.2.2 envW ["repo", "CLAUDE.md"] "project"
      ["repo"] rfl

/-- C5: the flattened issues and recommendations lists of every report
are sorted ascending by `(priority, category)` in code-point string
order, and on the concrete triple P2/settings, P0/memory, P1/mcp the
sort places P0/memory first, P1/mcp second, P2/settings third. -/
theorem audit_sorted_issue_lists :
    (∀ (env : Env) (root0 : PyPath) (incl : Bool) (now : String) (rep : AuditReport),
      audit env root0 incl now = Except.ok rep →
      List.Sorted IssueLe rep.issues ∧ List.Sorted IssueLe rep.recommendations) ∧
    List.insertionSort IssueLe
      [{ priority := "P2", category := "settings", file := none, message := "a" },
       { priority := "P0", category := "memory", file := none, message := "b" },
       { priority := "P1", category := "mcp", file := none, message := "c" }] =
      [{ priority := "P0", category := "memory", file := none, message := "b" },
       { priority := "P1", category := "mcp", file := none, message := "c" },
       { priority := "P2", category := "settings", file := none, message := "a" }] := by
  constructor
  · intro env root0 incl now rep h
    simp only [audit] at h
    obtain ⟨d, hd, hrep⟩ := except_map_ok h
    obtain ⟨tracked, memRs, setRs, mcpRs, skRs, hmem, hlarge, hiss, hrec⟩ :=
      auditCore_ok_elim hd
    subst hrep
    constructor
    · have hpr : ({ d with generated_at := now } : AuditReport).issues = d.issues := rfl
      rw [hpr, hiss]
      exact List.sorted_insertionSort IssueLe _
    · have hpr : ({ d with generated_at := now } : AuditReport).recommendations =
        d.recommendations := rfl
      rw [hpr, hrec]
      exact List.sorted_insertionSort IssueLe _
  · decide

/-- C5 witness: sortedness of both lists of the concrete `envW`
report. -/
theorem audit_sorted_issue_lists_witness :
    List.Sorted IssueLe repW.issues ∧ List.Sorted IssueLe repW.recommendations :=
  audit_sorted_issue_lists.1 envW rootW false "t0" repW rfl

/-- C7: the large-repo flag equals `file_count > 3000`, so 3000 tracked
files give `false` and 3001 give `true`; and whenever the flag is set a
P1 recommendation of category `scale` is present in the output
recommendations. -/
theorem audit_large_repo_flag :
    ∀ (env : Env) (root0 : PyPath) (incl : Bool) (now : String) (rep : AuditReport),
      audit env root0 incl now = Except.ok rep →
      rep.is_large_repo = decide (3000 < rep.file_count) ∧
      (rep.file_count = 3000 → rep.is_large_repo = false) ∧
      (rep.file_count = 3001 → rep.is_large_repo = true) ∧
      (rep.is_large_repo = true →
        ∃ e ∈ rep.recommendations, e.priority = "P1" ∧ e.category = "scale") := by
  intro env root0 incl now rep h
  simp only [audit] at h
  obtain ⟨d, hd, hrep⟩ := except_map_ok h
  obtain ⟨tracked, memRs, setRs, mcpRs, skRs, hmem, hlarge, hiss, hrec⟩ :=
    auditCore_ok_elim hd
  subst hrep
  have hfc : ({ d with generated_at := now } : AuditReport).file_count = d.file_count := rfl
  have hlr : ({ d with generated_at := now } : AuditReport).is_large_repo =
    d.is_large_repo := rfl
  have hrc : ({ d with generated_at := now } : AuditReport).recommendations =
    d.recommendations := rfl
  rw [hfc, hlr, hrc, hlarge]
  refine ⟨rfl, ?_, ?_, ?_⟩
  · intro h30
    rw [h30]
    decide
  · intro h30
    rw [h30]
    decide
  · intro hlt
    rw [hrec, hlarge, hlt]
    exact ⟨_, ((List.perm_insertionSort IssueLe _).mem_iff).mpr
      (mkAllRecs_scale memRs d.file_count), rfl, rfl⟩

/-- C7 witness: the flag equation at the concrete `envW` report. -/
theorem audit_large_repo_flag_witness :
    repW.is_large_repo = decide (3000 < repW.file_count) :=
  (audit_large_repo_flag envW rootW false "t0" repW rfl).1

/-- C9: two audit runs over the same environment (same filesystem and
same version-control answers) give reports that are identical once the
`generated_at` timestamp is erased — the timestamp is the only field
the clock reaches, and the sequential construction imposes the
deterministic sort, so output does not depend on analyzer completion
order. -/
theorem audit_idempotent_modulo_timestamp :
    ∀ (env : Env) (root0 : PyPath) (incl : Bool) (t1 t2 : String) (r1 r2 : AuditReport),
      audit env root0 incl t1 = Except.ok r1 → audit env root0 incl t2 = Except.ok r2 →
      { r1 with generated_at := "" } = { r2 with generated_at := "" } := by
  intro env root0 incl t1 t2 r1 r2 h1 h2
  simp only [audit] at h1 h2
  obtain ⟨d1, hd1, he1⟩ := except_map_ok h1
  obtain ⟨d2, hd2, he2⟩ := except_map_ok h2
  have hdd : d1 = d2 := Except.ok.inj (hd1.symm.trans hd2)
  subst hdd
  subst he1
  subst he2
  rfl

/-- C9 witness: two runs at distinct timestamps over `envW` agree after
erasing `generated_at`. -/
theorem audit_idempotent_modulo_timestamp_witness :
    { okOr default (audit envW rootW false "tA") with generated_at := "" } =
    { okOr default (audit envW rootW false "tB") with generated_at := "" } :=
  audit_idempotent_modulo_timestamp envW rootW false "tA" "tB" _ _ rfl rfl


/-- C8: every memory-file report satisfies `missing_imports ⊆ imports`,
and a report with `exists = false` has all numeric fields zero and all
list fields empty. -/
theorem memory_report_invariants :
    ∀ (env : Env) (path : List String) (scope : String) (root : List String)
        (tracked : Option (List String)) (rep : MemoryFileReport),
      analyze_memory_file env path scope root tracked = Except.ok rep →
      rep.missing_imports ⊆ rep.imports ∧
      (rep.«exists» = false → rep.bytes = 0 ∧ rep.lines = 0 ∧ rep.word_count = 0 ∧
        rep.heading_count = 0 ∧ rep.imports = [] ∧ rep.missing_imports = [] ∧
        rep.issues = [] ∧ rep.recommendations = []) :=
  fun _ _ _ _ _ _ h => analyze_memory_file_invariants h

/-- C8 witness: the invariants at an existing and at a missing concrete
memory file. -/
theorem memory_report_invariants_witness :
    memRepW.missing_imports ⊆ memRepW.imports ∧
    (memRepMissingW.bytes = 0 ∧ memRepMissingW.lines = 0 ∧
      memRepMissingW.word_count = 0 ∧ memRepMissingW.heading_count = 0 ∧
      memRepMissingW.imports = [] ∧ memRepMissingW.missing_imports = [] ∧
      memRepMissingW.issues = [] ∧ memRepMissingW.recommendations = []) :=
  ⟨(memory_report_invariants envW ["repo", "CLAUDE.md"] "project" ["repo"] none
      memRepW rfl).1,
   (memory_report_invariants envW ["repo", ".claude", "CLAUDE.md"] "project" ["repo"] none
      memRepMissingW rfl).2 rfl⟩

/-- C6 (amended): a stripped token starting with `~` resolves through
home expansion only — independent of the artifact directory and of the
root; a token that is `~` or starts with `~/` lands on the user's home
directory; other `~`-tokens go to the named user's database entry (or
stay unchanged), not to the current user's home; an absolute token is
used directly; any other token resolves against the artifact's own
directory, never against the root. -/
theorem resolve_import_rules :
    ∀ (env : Env) (base_dir : PyPath) (raw : String) (repo_root : PyPath),
      (pyStartsWith (pyStrip raw) "~" = true →
        resolve_import env base_dir raw repo_root =
          parsePath (expanduser (pathStrAbs env.home) env.userdb (pyStrip raw))) ∧
      ((pyStrip raw = "~" ∨ pyStartsWith (pyStrip raw) "~/" = true) →
        expanduser (pathStrAbs env.home) env.userdb (pyStrip raw) =
          pathStrAbs env.home ++ ((pyStrip raw).data.drop 1).asString) ∧
      (pyStartsWith (pyStrip raw) "~" = false →
        (parsePath (pyStrip raw)).absolute = true →
        resolve_import env base_dir raw repo_root = parsePath (pyStrip raw)) ∧
      (pyStartsWith (pyStrip raw) "~" = false →
        (parsePath (pyStrip raw)).absolute = false →
        resolve_import env base_dir raw repo_root =
          { absolute := true,
            parts := absOf env (joinPath base_dir (parsePath (pyStrip raw))) }) := by
  intro env base_dir raw repo_root
  refine ⟨?_, ?_, ?_, ?_⟩
  · intro h
    simp [resolve_import, h]
  · intro h
    generalize hg : pyStrip raw = t at h ⊢
    rcases h with h | h
    · rw [h]
      rfl
    · obtain ⟨cs, hcs⟩ := List.isPrefixOf_iff_prefix.mp h
      have ht : t = String.mk ('~' :: '/' :: cs) := string_eq_of_data_eq (by rw [← hcs]; rfl)
      rw [ht]
      rfl
  · intro h habs
    simp [resolve_import, h, habs]
  · intro h habs
    simp [resolve_import, h, habs]

/-- C6 counterexample: the token `~alice/shared.md` starts with `~` but
resolves into the database entry of user `alice`, not under the current
user's home directory, refuting the claim that every `~`-token resolves
against the user's home. -/
theorem resolve_import_tilde_counterexample :
    pyStartsWith (pyStrip "~alice/shared.md") "~" = true ∧
    (parsePath (pathStrAbs envTilde.home)).parts.isPrefixOf
      (resolve_import envTilde { absolute := true, parts := ["repo", "docs"] }
        "~alice/shared.md" { absolute := true, parts := ["repo"] }).parts = false := by
  exact ⟨rfl, rfl⟩

/-- C6 witness: the four resolution rules at concrete tokens. -/
theorem resolve_import_rules_witness :
    resolve_import envTilde { absolute := true, parts := ["repo", "docs"] } "~/shared.md"
      { absolute := true, parts := ["repo"] } =
      parsePath (expanduser (pathStrAbs envTilde.home) envTilde.userdb
        (pyStrip "~/shared.md")) ∧
    expanduser (pathStrAbs envTilde.home) envTilde.userdb (pyStrip "~/shared.md") =
      pathStrAbs envTilde.home ++ ((pyStrip "~/shared.md").data.drop 1).asString ∧
    resolve_import envTilde { absolute := true, parts := ["repo", "docs"] } "/abs/x.md"
      { absolute := true, parts := ["repo"] } = parsePath (pyStrip "/abs/x.md") ∧
    resolve_import envTilde { absolute := true, parts := ["repo", "docs"] } "docs/x.md"
      { absolute := true, parts := ["repo"] } =
      { absolute := true,
        parts := absOf envTilde (joinPath { absolute := true, parts := ["repo", "docs"] }
          (parsePath (pyStrip "docs/x.md"))) } := by
  refine ⟨?_, ?_, ?_, ?_⟩
  · exact (resolve_import_rules envTilde _ "~/shared.md" _).1 rfl
  · exact (resolve_import_rules envTilde { absolute := true, parts := ["repo", "docs"] }
      "~/shared.md" { absolute := true, parts := ["repo"] }).2.1 (Or.inr rfl)
  · exact (resolve_import_rules envTilde _ "/abs/x.md" _).2.2.1 rfl rfl
  · exact (resolve_import_rules envTilde _ "docs/x.md" _).2.2.2 rfl rfl

/-- C10: in the flattened issues list, a memory issue is the single P0
no-memory-document message or carries P1 exactly when its message
contains `missing` case-insensitively and P2 otherwise; settings issues
are P1; mcp and skills issues are P2; and every memory recommendation
is P2. -/
theorem audit_issue_priority_policy :
    ∀ (env : Env) (root0 : PyPath) (incl : Bool) (now : String) (rep : AuditReport),
      audit env root0 incl now = Except.ok rep →
      (∀ x ∈ rep.issues,
        (x.category = "memory" →
          (x.message = msgNoMemory ∧ x.priority = "P0") ∨
          (x.message ≠ msgNoMemory ∧
            x.priority = if pyInStr "missing" (pyLower x.message) then "P1" else "P2")) ∧
        (x.category = "settings" → x.priority = "P1") ∧
        (x.category = "mcp" → x.priority = "P2") ∧
        (x.category = "skills" → x.priority = "P2")) ∧
      (∀ y ∈ rep.recommendations, y.category = "memory" → y.priority = "P2") := by
  intro env root0 incl now rep h
  simp only [audit] at h
  obtain ⟨d, hd, hrep⟩ := except_map_ok h
  obtain ⟨tracked, memRs, setRs, mcpRs, skRs, hmem, hlarge, hiss, hrec⟩ :=
    auditCore_ok_elim hd
  subst hrep
  have hshape : ∀ r ∈ memRs, ∀ m ∈ r.issues,
      m = msgLocalDeprecated ∨ (∃ n, m = msgVeryLarge n) ∨
      (∃ l, m = msgMissingImports l) ∨ m = msgNoHeadings := by
    intro r hr
    obtain ⟨ps, hps, hok⟩ := mapME_ok_mem hmem r hr
    exact analyze_memory_file_issue_shapes hok
  constructor
  · intro x hx
    have hik : ({ d with generated_at := now } : AuditReport).issues = d.issues := rfl
    rw [hik, hiss] at hx
    have hx2 := ((List.perm_insertionSort IssueLe _).mem_iff).mp hx
    rcases mkAllIssues_mem hx2 hshape with
      ⟨hc, hm, hp⟩ | ⟨hc, hm, hp⟩ | ⟨hc, hp⟩ | ⟨hc, hp⟩ | ⟨hc, hp⟩
    · exact ⟨fun _ => Or.inl ⟨hm, hp⟩,
        fun hcat => absurd (hc.symm.trans hcat) (by decide),
        fun hcat => absurd (hc.symm.trans hcat) (by decide),
        fun hcat => absurd (hc.symm.trans hcat) (by decide)⟩
    · exact ⟨fun _ => Or.inr ⟨hm, hp⟩,
        fun hcat => absurd (hc.symm.trans hcat) (by decide),
        fun hcat => absurd (hc.symm.trans hcat) (by decide),
        fun hcat => absurd (hc.symm.trans hcat) (by decide)⟩
    · exact ⟨fun hcat => absurd (hc.symm.trans hcat) (by decide),
        fun _ => hp,
        fun hcat => absurd (hc.symm.trans hcat) (by decide),
        fun hcat => absurd (hc.symm.trans hcat) (by decide)⟩
    · exact ⟨fun hcat => absurd (hc.symm.trans hcat) (by decide),
        fun hcat => absurd (hc.symm.trans hcat) (by decide),
        fun _ => hp,
        fun hcat => absurd (hc.symm.trans hcat) (by decide)⟩
    · exact ⟨fun hcat => absurd (hc.symm.trans hcat) (by decide),
        fun hcat => absurd (hc.symm.trans hcat) (by decide),
        fun hcat => absurd (hc.symm.trans hcat) (by decide),
        fun _ => hp⟩
  · intro y hy
    have hrk : ({ d with generated_at := now } : AuditReport).recommendations =
      d.recommendations := rfl
    rw [hrk, hrec] at hy
    have hy2 := ((List.perm_insertionSort IssueLe _).mem_iff).mp hy
    rcases mkAllRecs_mem hy2 with ⟨hc, hp⟩ | ⟨hc, hp⟩
    · exact fun _ => hp
    · intro hcat
      exact absurd (hc.symm.trans hcat) (by decide)

/-- C10 witness: the policy at the concrete `envW` report. -/
theorem audit_issue_priority_policy_witness :
    (∀ x ∈ repW.issues,
      (x.category = "memory" →
        (x.message = msgNoMemory ∧ x.priority = "P0") ∨
        (x.message ≠ msgNoMemory ∧
          x.priority = if pyInStr "missing" (pyLower x.message) then "P1" else "P2")) ∧
      (x.category = "settings" → x.priority = "P1") ∧
      (x.category = "mcp" → x.priority = "P2") ∧
      (x.category = "skills" → x.priority = "P2")) ∧
    (∀ y ∈ repW.recommendations, y.category = "memory" → y.priority = "P2") :=
  audit_issue_priority_policy envW rootW false "t0" repW rfl
